import Mathlib

/-!
# configure-network.go: static address allocation and network configuration

A shallow embedding of `primeiro/configure-network.go`.

Conventions of the embedding.

* A Go `string` is a sequence of bytes.  It is represented by a `String` that
  holds one character per byte (for ASCII text, the text itself), so `len(s)`
  is `s.data.length` and `s[:9]` keeps the first nine characters.  All string
  operations of the program (concatenation, slicing, `strings.Join`,
  `strings.Contains`, `%s`) are sequence operations that do not look inside a
  byte.
* A Go `int` is a 64-bit two's complement integer (amd64, arm64).  It is
  represented by an `Int`; the only arithmetic of the program, the `i++` of
  the scan loop, wraps around explicitly (`wrapInt`).
* The outside world is a record `Env`: the host platform, the `TYPENODE`
  variable, the outcome of the HTTP fetch, the outcome of every external
  command and of `os.WriteFile`.  An outcome is a function of the command or
  of the path and content written, so the same call ends in the same way
  each time it is made.
* Effects are recorded in a `World`: the trace of events (printed lines,
  commands run, files written, and the calls of `checkIP` and
  `configureNetwork`) and the content of the files.
* The scan loop of `getIPRange` takes a fuel argument that bounds the number
  of evaluations of its loop condition; `Halt.outOfFuel` is the only outcome
  that is not an outcome of the program.
-/

namespace ConfigureNetwork

/-! ## Data model -/

structure Range where
  FROM : Int
  TO : Int
deriving DecidableEq, Repr

structure Subnet where
  IP : String
  Mask : Int
deriving DecidableEq, Repr

structure NetworkInfo where
  Server : Range
  POS : Range
  KDS : Range
  FAILOVER : Range
  Nameserver : List String
  Subnet : Subnet
  Gateway : String
  DHCP : Bool
deriving DecidableEq, Repr

structure Data where
  Network : NetworkInfo
deriving DecidableEq, Repr

/-! ## Machine integers and formatting -/

/-- Smallest value of a 64-bit `int`. -/
def minInt : Int := -9223372036854775808

/-- Largest value of a 64-bit `int`. -/
def maxInt : Int := 9223372036854775807

/-- The values of a 64-bit `int`. -/
def isInt (x : Int) : Prop := minInt ≤ x ∧ x ≤ maxInt

instance (x : Int) : Decidable (isInt x) := by
  unfold isInt; exact inferInstance

/-- Two's complement wrap-around of a mathematical integer to 64 bits. -/
def wrapInt (x : Int) : Int := (x + 9223372036854775808) % 18446744073709551616 - 9223372036854775808

/-- The verb `%d` of `fmt` on an `int`: decimal digits, with a leading `-`
for a negative number. -/
def fmtInt : Int → String
  | Int.ofNat n => Nat.repr n
  | Int.negSucc n => "-" ++ Nat.repr (n + 1)

/-- Does the sequence `s` start with the sequence `p`? -/
def startsWith : List Char → List Char → Bool
  | _, [] => true
  | [], _ :: _ => false
  | c :: s, d :: p => c == d && startsWith s p

/-- Does `sub` occur in `s` as a contiguous block? -/
def containsChars : List Char → List Char → Bool
  | [], sub => startsWith [] sub
  | c :: s, sub => startsWith (c :: s) sub || containsChars s sub

/-- The function `strings.Contains`. -/
def stringsContains (s substr : String) : Bool := containsChars s.data substr.data

/-- The function `strings.Join`. -/
def stringsJoin : List String → String → String
  | [], _ => ""
  | [a], _ => a
  | a :: b :: rest, sep => a ++ sep ++ stringsJoin (b :: rest) sep

/-- The slice expression `s[:n]`: `none` stands for the run-time panic
"slice bounds out of range" raised when `n > len(s)`. -/
def sliceTo (s : String) (n : Nat) : Option String :=
  if n ≤ s.data.length then some (String.mk (s.data.take n)) else none

/-! ## The outside world -/

/-- Outcome of running an external command to completion: its combined
output and the text of the error, if `err != nil`. -/
structure CmdResult where
  output : String
  err : Option String
deriving DecidableEq, Repr

/-- Outcome of `getApiJson`: the decoded response, or the failing step with
the text of its error. -/
inductive ApiOutcome
  | requestError (err : String)
  | transportError (err : String)
  | readError (err : String)
  | parseError (err : String)
  | decoded (responseData : List Data)
deriving DecidableEq, Repr

/-- Outcome of `os.WriteFile`, which opens the file with
`O_WRONLY|O_CREATE|O_TRUNC`, writes the data and closes the file.  Either the
whole content is written; or opening the file fails and the file is left as
it was; or the file is opened, hence emptied, and an error comes after the
first `n` bytes of the content have been written (`n` is 0 when nothing was
written). -/
inductive WriteOutcome
  | written
  | openFailed (err : String)
  | writeFailed (err : String) (n : Nat)
deriving DecidableEq, Repr

structure Env where
  /-- The constant `runtime.GOOS`. -/
  GOOS : String
  /-- The value of `os.Getenv("TYPENODE")` (empty when unset). -/
  TYPENODE : String
  /-- What the request of `getApiJson` ends in. -/
  api : ApiOutcome
  /-- What a command with the given name and arguments ends in. -/
  run : String → List String → CmdResult
  /-- What `os.WriteFile` of a content to a path ends in. -/
  writeFile : String → String → WriteOutcome

inductive Event
  | println (line : String)
  | probe (ip : String)
  | command (name : String) (args : List String)
  | fileWritten (path : String) (content : String)
  | configure (ipOff : String) (subnetMask : Int) (nameservers : List String) (gateway : String)
deriving DecidableEq, Repr

structure World where
  trace : List Event
  files : String → Option String

/-- A world in which nothing has happened yet. -/
def World.start (files : String → Option String) : World := ⟨[], files⟩

def World.log (w : World) (e : Event) : World := { w with trace := w.trace ++ [e] }

/-- The file at `path` is replaced: it now holds exactly `content`. -/
def World.store (w : World) (path content : String) : World :=
  { trace := w.trace ++ [Event.fileWritten path content],
    files := fun p => if p = path then some content else w.files p }

/-- How a run stops before the end of `main`. -/
inductive Halt
  | exit (code : Int)
  | panic (msg : String)
  | outOfFuel
deriving DecidableEq, Repr

inductive Res (α : Type)
  | ok (a : α) (w : World)
  | halt (h : Halt) (w : World)

def Res.world {α : Type} : Res α → World
  | Res.ok _ w => w
  | Res.halt _ w => w

/-- The exit status of the process: 0 when `main` returns, the argument of
`os.Exit`, 2 after a run-time panic; `none` when the model ran out of fuel. -/
def Res.exitStatus {α : Type} : Res α → Option Int
  | Res.ok _ _ => some 0
  | Res.halt (Halt.exit c) _ => some c
  | Res.halt (Halt.panic _) _ => some 2
  | Res.halt Halt.outOfFuel _ => none

/-- How the run stopped, if it stopped before the end of `main`. -/
def Res.stopped {α : Type} : Res α → Option Halt
  | Res.ok _ _ => none
  | Res.halt h _ => some h

/-- The addresses `checkIP` was called with, in order. -/
def probes : List Event → List String
  | [] => []
  | Event.probe ip :: es => ip :: probes es
  | _ :: es => probes es

/-- The number of calls of `configureNetwork`. -/
def configureCalls : List Event → Nat
  | [] => 0
  | Event.configure _ _ _ _ :: es => configureCalls es + 1
  | _ :: es => configureCalls es

/-- The events that act on the host or the network: commands run and files
written. -/
def actions : List Event → List Event
  | [] => []
  | Event.command n a :: es => Event.command n a :: actions es
  | Event.fileWritten p c :: es => Event.fileWritten p c :: actions es
  | _ :: es => actions es

/-! ## The program -/

/-- The function `handleError`: print the message and the error, then `os.Exit(1)`. -/
def handleError {α : Type} (msg err : String) (w : World) : Res α :=
  Res.halt (Halt.exit 1) (w.log (Event.println (msg ++ " " ++ err)))

def getApiJson (env : Env) (w : World) : Res (List Data) :=
  match env.api with
  | ApiOutcome.requestError err => handleError "Error creating request:" err w
  | ApiOutcome.transportError err => handleError "Error making request:" err w
  | ApiOutcome.readError err => handleError "Error reading response body:" err w
  | ApiOutcome.parseError err => handleError "Error parsing JSON:" err w
  | ApiOutcome.decoded responseData => Res.ok responseData w

def getNetworkInfo (env : Env) (w : World) : Res (Except String NetworkInfo) :=
  match getApiJson env w with
  | Res.halt h w1 => Res.halt h w1
  | Res.ok [] w1 => Res.ok (Except.error "no data received from API") w1
  | Res.ok (d :: _) w1 => Res.ok (Except.ok d.Network) w1

/-- The arguments of the `ping` command chosen by the `switch` of `checkIP`;
`none` is its `default` branch. -/
def pingArgs (goos ip : String) : Option (List String) :=
  if goos = "windows" then some ["-n", "1", "-w", "1000", ip]
  else if goos = "darwin" ∨ goos = "linux" then some ["-c", "1", "-W", "1", ip]
  else none

def checkIP (env : Env) (ip : String) (w : World) : Bool × World :=
  let w0 := w.log (Event.probe ip)
  match pingArgs env.GOOS ip with
  | none => (false, w0.log (Event.println "Unsupported operating system"))
  | some args =>
    let w1 := w0.log (Event.command "ping" args)
    match (env.run "ping" args).err with
    | some _ => (false, w1)
    | none => (!stringsContains (env.run "ping" args).output "2 received", w1)

/-- The loop `for i := network.FROM; i <= network.TO; i++` of `getIPRange`. -/
def getIPRangeLoop (env : Env) (subnetIP : String) (TO : Int) :
    Nat → Int → List String → World → Res (List String)
  | 0, _, _, w => Res.halt Halt.outOfFuel w
  | fuel + 1, i, ips, w =>
    if i ≤ TO then
      let ip := subnetIP ++ fmtInt i
      let r := checkIP env ip w
      getIPRangeLoop env subnetIP TO fuel (wrapInt (i + 1))
        (if r.1 then ips else ips ++ [ip]) r.2
    else Res.ok ips w

def getIPRange (env : Env) (network : Range) (subnetIP : String) (fuel : Nat) (w : World) :
    Res (List String) :=
  getIPRangeLoop env subnetIP network.TO fuel network.FROM [] w

/-- The text written by `configureNetworkLinux`. -/
def netplanConfig (ipOff : String) (subnetMask : Int) (nameservers : List String)
    (gateway : String) : String :=
  "network:\n  version: 2\n  renderer: networkd\n  ethernets:\n    eth0:\n      dhcp4: no\n"
    ++ "      addresses: [\"" ++ ipOff ++ "/" ++ fmtInt subnetMask ++ "\"]\n"
    ++ "      gateway4: \"" ++ gateway ++ "\"\n"
    ++ "      nameservers:\n        addresses: [" ++ stringsJoin nameservers ", " ++ "]\n"

def netplanFilePath : String := "/etc/netplan/99-custom.yaml"

def configureNetworkLinux (env : Env) (ipOff : String) (subnetMask : Int)
    (nameservers : List String) (gateway : String) (w : World) : Res Unit :=
  let config := netplanConfig ipOff subnetMask nameservers gateway
  match env.writeFile netplanFilePath config with
  | WriteOutcome.openFailed err => handleError "Error writing Netplan configuration file:" err w
  | WriteOutcome.writeFailed err n =>
    handleError "Error writing Netplan configuration file:" err
      (w.store netplanFilePath (String.mk (config.data.take n)))
  | WriteOutcome.written =>
    let w1 := w.store netplanFilePath config
    let w2 := w1.log (Event.command "netplan" ["apply"])
    match (env.run "netplan" ["apply"]).err with
    | some err => handleError "Error applying Netplan configuration:" err w2
    | none =>
      Res.ok () (w2.log (Event.println "Static IP configured successfully on Linux using Netplan."))

def configureNetworkWindows (env : Env) (ipOff : String) (subnetMask : Int)
    (nameservers : List String) (gateway : String) (w : World) : Res Unit :=
  let args := ["-Command", "New-NetIPAddress -InterfaceAlias Ethernet -IPAddress " ++ ipOff
    ++ " -PrefixLength " ++ fmtInt subnetMask ++ " -DefaultGateway " ++ gateway]
  let w1 := w.log (Event.command "powershell" args)
  match (env.run "powershell" args).err with
  | some err => handleError "Error configuring static IP on Windows:" err w1
  | none =>
    let dnsCmd := "Set-DnsClientServerAddress -InterfaceAlias Ethernet -ServerAddresses "
      ++ stringsJoin nameservers ","
    let w2 := w1.log (Event.command "powershell" ["-Command", dnsCmd])
    match (env.run "powershell" ["-Command", dnsCmd]).err with
    | some err => handleError "Error configuring DNS servers on Windows:" err w2
    | none =>
      Res.ok () (w2.log
        (Event.println "Static IP configured successfully on Windows using PowerShell."))

def configureNetwork (env : Env) (ipOff : String) (subnetMask : Int)
    (nameservers : List String) (gateway : String) (w : World) : Res Unit :=
  let w0 := w.log (Event.configure ipOff subnetMask nameservers gateway)
  if env.GOOS = "linux" then configureNetworkLinux env ipOff subnetMask nameservers gateway w0
  else if env.GOOS = "windows" then
    configureNetworkWindows env ipOff subnetMask nameservers gateway w0
  else Res.halt (Halt.exit 1) (w0.log (Event.println "Unsupported operating system"))

/-- The `switch typeNode` of `checkDhcp`: the range of a known role, `none`
in the `default` branch. -/
def roleRange (networkInfo : NetworkInfo) (typeNode : String) : Option Range :=
  if typeNode = "server" then some networkInfo.Server
  else if typeNode = "pos" then some networkInfo.POS
  else if typeNode = "kds" then some networkInfo.KDS
  else if typeNode = "failover" then some networkInfo.FAILOVER
  else none

/-- The tail of `checkDhcp`, from `if ipOff != ""` on. -/
def reportAndConfigure (env : Env) (networkInfo : NetworkInfo) (ipOff : String) (w : World) :
    Res Unit :=
  let w1 :=
    if ipOff ≠ "" then
      ((w.log (Event.println "-----------Configuring static IP")).log
        (Event.println ("-----------Addresses: " ++ (ipOff ++ "/") ++ " "
          ++ fmtInt networkInfo.Subnet.Mask))).log
        (Event.println ("-----------Name Servers: ["
          ++ stringsJoin networkInfo.Nameserver " " ++ "]"))
    else w.log (Event.println "No unavailable IP found.")
  configureNetwork env ipOff networkInfo.Subnet.Mask networkInfo.Nameserver
    networkInfo.Gateway w1

def checkDhcp (env : Env) (fuel : Nat) (w : World) : Res Unit :=
  match getNetworkInfo env w with
  | Res.halt h w1 => Res.halt h w1
  | Res.ok (Except.error err) w1 => handleError "Error getting network information:" err w1
  | Res.ok (Except.ok networkInfo) w1 =>
    if networkInfo.DHCP then
      Res.halt (Halt.exit 1) (w1.log (Event.println "DHCP configured"))
    else
      match sliceTo networkInfo.Subnet.IP 9 with
      | none => Res.halt (Halt.panic "slice bounds out of range") w1
      | some head9 =>
        let subnetIP := head9 ++ "."
        match roleRange networkInfo env.TYPENODE with
        | none => handleError "Unknown machine type:" "<nil>" w1
        | some network =>
          match getIPRange env network subnetIP fuel w1 with
          | Res.halt h w2 => Res.halt h w2
          | Res.ok [] w2 => Res.halt (Halt.panic "index out of range [0] with length 0") w2
          | Res.ok (ipOff :: _) w2 => reportAndConfigure env networkInfo ipOff w2

/-- The function `main`. -/
def main (env : Env) (fuel : Nat) (files : String → Option String) : Res Unit :=
  checkDhcp env fuel (World.start files)

/-! ## Derived notions used to state the properties -/

/-- The answer of `checkIP` for an address.  It does not depend on the world
in which the call is made (`checkIP_eq`). -/
def checkIPAnswer (env : Env) (ip : String) : Bool :=
  (checkIP env ip (World.start (fun _ => none))).1

/-- The events of one call of `checkIP`. -/
def checkIPEvents (env : Env) (ip : String) : List Event :=
  (checkIP env ip (World.start (fun _ => none))).2.trace

/-- The integers `i, i + 1, ...`, `cnt` of them. -/
def candidates : Nat → Int → List Int
  | 0, _ => []
  | cnt + 1, i => i :: candidates cnt (i + 1)

/-- The addresses of the given last octets that `checkIP` answers `false` for. -/
def freeOf (env : Env) (subnetIP : String) : List Int → List String
  | [] => []
  | n :: ns =>
    if checkIPAnswer env (subnetIP ++ fmtInt n) then freeOf env subnetIP ns
    else (subnetIP ++ fmtInt n) :: freeOf env subnetIP ns

/-- The events of probing the given last octets one after the other. -/
def scanEvents (env : Env) (subnetIP : String) : List Int → List Event
  | [] => []
  | n :: ns => checkIPEvents env (subnetIP ++ fmtInt n) ++ scanEvents env subnetIP ns

/-- The dot-separated fields of an address. -/
def splitDots : List Char → List (List Char)
  | [] => [[]]
  | c :: cs =>
    match splitDots cs with
    | [] => [[]]
    | x :: xs => if c = '.' then [] :: x :: xs else (c :: x) :: xs

/-- From the words of the specification (data model, `subnet`): the first
three octets of the address joined by dots, followed by a trailing dot;
`none` when the address has fewer than three dot-separated octets. -/
def firstThreeOctets (ip : String) : Option String :=
  match splitDots ip.data with
  | a :: b :: c :: _ => some (String.mk a ++ "." ++ String.mk b ++ "." ++ String.mk c ++ ".")
  | _ => none

/-! ## Sample inputs -/

/-- A sample document: the four role ranges of a store on 192.168.1.0/24. -/
def sampleInfo : NetworkInfo :=
  { Server := ⟨10, 12⟩, POS := ⟨20, 29⟩, KDS := ⟨30, 39⟩, FAILOVER := ⟨5, 5⟩,
    Nameserver := ["8.8.8.8", "1.1.1.1"], Subnet := ⟨"192.168.1.10", 24⟩,
    Gateway := "192.168.1.1", DHCP := false }

/-- A ping that is answered exactly by the addresses of `alive`. -/
def pingOf (alive : List String) (name : String) (args : List String) : CmdResult :=
  if name = "ping" then
    if alive.any (fun ip => args.getLast? = some ip) then
      ⟨"1 packets transmitted, 1 received", none⟩
    else ⟨"1 packets transmitted, 0 received", some "exit status 1"⟩
  else ⟨"", none⟩

/-- A Linux host with the given role, fetched document and answering addresses. -/
def linuxEnv (role : String) (info : NetworkInfo) (alive : List String) : Env :=
  { GOOS := "linux", TYPENODE := role, api := ApiOutcome.decoded [⟨info⟩],
    run := pingOf alive, writeFile := fun _ _ => WriteOutcome.written }

/-- A Linux host whose ping ends without an error for every address, with
the given combined output. -/
def answeringEnv (output : String) : Env :=
  { GOOS := "linux", TYPENODE := "server", api := ApiOutcome.decoded [⟨sampleInfo⟩],
    run := fun _ _ => ⟨output, none⟩, writeFile := fun _ _ => WriteOutcome.written }

/-! ## Lemmas on the scan loop -/

theorem wrapInt_of_isInt (x : Int) (h : isInt x) : wrapInt x = x := by
  unfold isInt minInt maxInt at h
  unfold wrapInt
  omega

theorem isInt_wrapInt (x : Int) : isInt (wrapInt x) := by
  unfold isInt minInt maxInt wrapInt
  omega

theorem checkIP_eq (env : Env) (ip : String) (w : World) :
    checkIP env ip w = (checkIPAnswer env ip, ⟨w.trace ++ checkIPEvents env ip, w.files⟩) := by
  unfold checkIPAnswer checkIPEvents checkIP
  cases hp : pingArgs env.GOOS ip with
  | none => simp [World.log, World.start]
  | some args =>
    cases he : (env.run "ping" args).err with
    | none => simp [World.log, World.start, he]
    | some e => simp [World.log, World.start, he]

theorem probes_append (a b : List Event) : probes (a ++ b) = probes a ++ probes b := by
  induction a with
  | nil => rfl
  | cons e es ih => cases e <;> simp [probes, ih]

theorem probes_checkIPEvents (env : Env) (ip : String) : probes (checkIPEvents env ip) = [ip] := by
  unfold checkIPEvents checkIP
  cases hp : pingArgs env.GOOS ip with
  | none => simp [World.log, World.start, probes]
  | some args =>
    cases he : (env.run "ping" args).err with
    | none => simp [World.log, World.start, he, probes]
    | some e => simp [World.log, World.start, he, probes]

theorem getIPRangeLoop_spec (env : Env) (subnetIP : String) (TO : Int) (hT : TO < maxInt) :
    ∀ (cnt : Nat) (i : Int) (ips : List String) (w : World) (fuel : Nat),
      minInt ≤ i → i + cnt = TO + 1 → cnt < fuel →
      getIPRangeLoop env subnetIP TO fuel i ips w =
        Res.ok (ips ++ freeOf env subnetIP (candidates cnt i))
          ⟨w.trace ++ scanEvents env subnetIP (candidates cnt i), w.files⟩ := by
  intro cnt
  induction cnt with
  | zero =>
    intro i ips w fuel _ hi hf
    obtain ⟨f, rfl⟩ : ∃ f, fuel = f + 1 := ⟨fuel - 1, by omega⟩
    have : ¬ i ≤ TO := by omega
    simp [getIPRangeLoop, this, candidates, freeOf, scanEvents]
  | succ c ih =>
    intro i ips w fuel hlo hi hf
    obtain ⟨f, rfl⟩ : ∃ f, fuel = f + 1 := ⟨fuel - 1, by omega⟩
    have hle : i ≤ TO := by omega
    have hw : wrapInt (i + 1) = i + 1 := by
      apply wrapInt_of_isInt
      unfold isInt; unfold maxInt at hT; unfold minInt at hlo ⊢; unfold maxInt; omega
    have hlo2 : minInt ≤ i + 1 := by omega
    have hi2 : i + 1 + (c : Int) = TO + 1 := by push_cast at hi; omega
    have hf2 : c < f := by omega
    simp only [getIPRangeLoop, hle, if_true, hw, checkIP_eq]
    rw [ih (i + 1) _ _ f hlo2 hi2 hf2]
    cases ha : checkIPAnswer env (subnetIP ++ fmtInt i) <;>
      simp [candidates, freeOf, scanEvents, ha, List.append_assoc]

theorem candidates_eq_range (cnt : Nat) (i : Int) :
    candidates cnt i = (List.range cnt).map (fun k : Nat => i + (k : Int)) := by
  induction cnt generalizing i with
  | zero => rfl
  | succ c ih =>
    rw [candidates, ih, List.range_succ_eq_map]
    simp only [List.map_cons, List.map_map, Nat.cast_zero, add_zero]
    congr 1
    apply List.map_congr_left
    intro k _
    simp only [Function.comp, Nat.cast_succ]
    ring

theorem probes_scanEvents (env : Env) (subnetIP : String) (l : List Int) :
    probes (scanEvents env subnetIP l) = l.map (fun n => subnetIP ++ fmtInt n) := by
  induction l with
  | nil => rfl
  | cons n ns ih => simp [scanEvents, probes_append, probes_checkIPEvents, ih]

theorem freeOf_first (env : Env) (subnetIP : String) (n : Int) :
    ∀ (cnt : Nat) (i : Int), i ≤ n → n < i + cnt →
      checkIPAnswer env (subnetIP ++ fmtInt n) = false →
      (∀ m : Int, i ≤ m → m < n → checkIPAnswer env (subnetIP ++ fmtInt m) = true) →
      ∃ rest, freeOf env subnetIP (candidates cnt i) = (subnetIP ++ fmtInt n) :: rest := by
  intro cnt
  induction cnt with
  | zero => intro i h1 h2; simp at h2; omega
  | succ c ih =>
    intro i h1 h2 hfree hmin
    by_cases hin : i = n
    · subst hin
      exact ⟨freeOf env subnetIP (candidates c (i + 1)), by simp [candidates, freeOf, hfree]⟩
    · have hlt : i < n := by omega
      obtain ⟨rest, hrest⟩ := ih (i + 1) (by omega) (by push_cast at h2; omega) hfree
        (fun m hm1 hm2 => hmin m (by omega) hm2)
      exact ⟨rest, by simp [candidates, freeOf, hmin i (le_refl i) hlt, hrest]⟩

theorem freeOf_all_alive (env : Env) (subnetIP : String) :
    ∀ (cnt : Nat) (i : Int),
      (∀ m : Int, i ≤ m → m < i + cnt → checkIPAnswer env (subnetIP ++ fmtInt m) = true) →
      freeOf env subnetIP (candidates cnt i) = [] := by
  intro cnt
  induction cnt with
  | zero => intro i _; rfl
  | succ c ih =>
    intro i h
    have h0 := h i (le_refl i) (by push_cast; omega)
    have := ih (i + 1) (fun m hm1 hm2 => h m (by omega) (by push_cast; omega))
    simp [candidates, freeOf, h0, this]

theorem getIPRangeLoop_never_returns (env : Env) (subnetIP : String) :
    ∀ (fuel : Nat) (i : Int) (ips : List String) (w : World), isInt i →
      (getIPRangeLoop env subnetIP maxInt fuel i ips w).stopped = some Halt.outOfFuel := by
  intro fuel
  induction fuel with
  | zero => intro i ips w _; rfl
  | succ f ih =>
    intro i ips w hi
    have hle : i ≤ maxInt := hi.2
    simp only [getIPRangeLoop, hle, if_true]
    exact ih _ _ _ (isInt_wrapInt _)

theorem getIPRange_spec (env : Env) (network : Range) (subnetIP : String) (w : World)
    (fuel : Nat) (hFrom : isInt network.FROM) (hTo : isInt network.TO)
    (hMax : network.TO ≠ maxInt) (hfuel : (network.TO + 1 - network.FROM).toNat < fuel) :
    getIPRange env network subnetIP fuel w =
      Res.ok (freeOf env subnetIP (candidates (network.TO + 1 - network.FROM).toNat network.FROM))
        ⟨w.trace ++ scanEvents env subnetIP
          (candidates (network.TO + 1 - network.FROM).toNat network.FROM), w.files⟩ := by
  have hT : network.TO < maxInt := lt_of_le_of_ne hTo.2 hMax
  unfold getIPRange
  by_cases hle : network.FROM ≤ network.TO + 1
  · have := getIPRangeLoop_spec env subnetIP network.TO hT
      (network.TO + 1 - network.FROM).toNat network.FROM [] w fuel hFrom.1 (by omega) hfuel
    simpa using this
  · have h0 : (network.TO + 1 - network.FROM).toNat = 0 := by omega
    obtain ⟨f, rfl⟩ : ∃ f, fuel = f + 1 := ⟨fuel - 1, by omega⟩
    have hn : ¬ network.FROM ≤ network.TO := by omega
    simp [getIPRangeLoop, hn, h0, candidates, freeOf, scanEvents]

/-! ## C1: the address selected by the scan -/

theorem exists_smallest_free (env : Env) (subnetIP : String) :
    ∀ (cnt : Nat) (i : Int),
      (∀ m : Int, i ≤ m → m < i + cnt → checkIPAnswer env (subnetIP ++ fmtInt m) = true) ∨
      ∃ n : Int, i ≤ n ∧ n < i + cnt ∧ checkIPAnswer env (subnetIP ++ fmtInt n) = false ∧
        ∀ m : Int, i ≤ m → m < n → checkIPAnswer env (subnetIP ++ fmtInt m) = true := by
  intro cnt
  induction cnt with
  | zero => intro i; left; intro m h1 h2; simp at h2; omega
  | succ c ih =>
    intro i
    cases hi : checkIPAnswer env (subnetIP ++ fmtInt i) with
    | false => exact Or.inr ⟨i, le_refl i, by push_cast; omega, hi, fun m h1 h2 => by omega⟩
    | true =>
      rcases ih (i + 1) with hall | ⟨n, h1, h2, h3, h4⟩
      · left
        intro m hm1 hm2
        by_cases hmi : m = i
        · rw [hmi]; exact hi
        · exact hall m (by omega) (by push_cast at hm2; omega)
      · right
        refine ⟨n, by omega, by push_cast; omega, h3, ?_⟩
        intro m hm1 hm2
        by_cases hmi : m = i
        · rw [hmi]; exact hi
        · exact h4 m (by omega) hm2

/-- C1 (amended): for every range of 64-bit integers whose upper end is not the
largest `int`, every subnet part and every answer of the liveness probe such
that `checkIP` answers "not alive" for at least one candidate of the range:
there is a smallest last octet `n` in `[FROM, TO]` with that answer, and
`getIPRange` returns (with enough fuel, from any world) a list whose first
element, the one `checkDhcp` takes, is the subnet part followed by the
decimal form of `n`. -/
theorem getIPRange_head_smallest_free (env : Env) (network : Range) (subnetIP : String)
    (w : World) (fuel : Nat)
    (hFrom : isInt network.FROM) (hTo : isInt network.TO) (hMax : network.TO ≠ maxInt)
    (hfuel : (network.TO + 1 - network.FROM).toNat < fuel)
    (hex : ∃ k : Int, network.FROM ≤ k ∧ k ≤ network.TO ∧
      checkIPAnswer env (subnetIP ++ fmtInt k) = false) :
    ∃ n : Int, network.FROM ≤ n ∧ n ≤ network.TO ∧
      checkIPAnswer env (subnetIP ++ fmtInt n) = false ∧
      (∀ m : Int, network.FROM ≤ m → m < n →
        checkIPAnswer env (subnetIP ++ fmtInt m) = true) ∧
      ∃ rest w1, getIPRange env network subnetIP fuel w =
        Res.ok ((subnetIP ++ fmtInt n) :: rest) w1 := by
  obtain ⟨k, hk1, hk2, hk3⟩ := hex
  rcases exists_smallest_free env subnetIP (network.TO + 1 - network.FROM).toNat network.FROM
    with hall | ⟨n, h1, h2, h3, h4⟩
  · have := hall k hk1 (by omega)
    rw [hk3] at this
    exact absurd this (by decide)
  · obtain ⟨rest, hrest⟩ := freeOf_first env subnetIP n
      (network.TO + 1 - network.FROM).toNat network.FROM h1 h2 h3 h4
    exact ⟨n, h1, by omega, h3, h4, rest, _,
      by rw [getIPRange_spec env network subnetIP w fuel hFrom hTo hMax hfuel, hrest]⟩

/-- Witness of C1: range 10 to 12 with .10 and .11 answering and .12 silent;
the address selected is 192.168.1.12. -/
theorem getIPRange_head_smallest_free_witness :
    (∃ rest w1,
      getIPRange (linuxEnv "server" sampleInfo ["192.168.1.10", "192.168.1.11"]) ⟨10, 12⟩
        "192.168.1." 4 (World.start (fun _ => none)) = Res.ok ("192.168.1.12" :: rest) w1) ∧
    ∃ n : Int, (10 : Int) ≤ n ∧ n ≤ 12 ∧
      checkIPAnswer (linuxEnv "server" sampleInfo ["192.168.1.10", "192.168.1.11"])
        ("192.168.1." ++ fmtInt n) = false ∧
      (∀ m : Int, (10 : Int) ≤ m → m < n →
        checkIPAnswer (linuxEnv "server" sampleInfo ["192.168.1.10", "192.168.1.11"])
          ("192.168.1." ++ fmtInt m) = true) ∧
      ∃ rest w1,
        getIPRange (linuxEnv "server" sampleInfo ["192.168.1.10", "192.168.1.11"]) ⟨10, 12⟩
          "192.168.1." 4 (World.start (fun _ => none)) =
        Res.ok (("192.168.1." ++ fmtInt n) :: rest) w1 :=
  ⟨⟨_, _, rfl⟩,
   getIPRange_head_smallest_free (linuxEnv "server" sampleInfo ["192.168.1.10", "192.168.1.11"])
    ⟨10, 12⟩ "192.168.1." (World.start (fun _ => none)) 4
    (by decide) (by decide) (by decide) (by decide) ⟨12, by decide, by decide, by decide⟩⟩

/-- Counterexample to C1 as stated: in the range from 10 to the largest
`int`, address .10 is answered "not alive", yet the scan returns nothing:
whatever the fuel, the loop is still running when it is used up, because
`i <= TO` holds for every `int`. -/
theorem getIPRange_largest_int_never_returns :
    isInt 10 ∧ isInt maxInt ∧
    checkIPAnswer (linuxEnv "server" sampleInfo []) ("192.168.1." ++ fmtInt 10) = false ∧
    ∀ fuel : Nat,
      (getIPRange (linuxEnv "server" sampleInfo []) ⟨10, maxInt⟩ "192.168.1." fuel
        (World.start (fun _ => none))).stopped = some Halt.outOfFuel :=
  ⟨by decide, by decide, by decide,
   fun fuel => getIPRangeLoop_never_returns _ _ fuel 10 [] _ (by decide)⟩

/-! ## C7: the sequence of probes -/

/-- C7 (amended): for every range of 64-bit integers whose upper end is not the
largest `int`, every subnet part and every answer of the probe, `getIPRange`
returns (with enough fuel) and the addresses it has passed to `checkIP` are
exactly the subnet part followed by `FROM`, `FROM + 1`, ..., `TO`, in this
order and once each; when `FROM > TO` it has passed none. -/
theorem getIPRange_probes_ascending (env : Env) (network : Range) (subnetIP : String)
    (w : World) (fuel : Nat)
    (hFrom : isInt network.FROM) (hTo : isInt network.TO) (hMax : network.TO ≠ maxInt)
    (hfuel : (network.TO + 1 - network.FROM).toNat < fuel) :
    ∃ ips w1, getIPRange env network subnetIP fuel w = Res.ok ips w1 ∧
      probes w1.trace = probes w.trace ++
        (List.range (network.TO + 1 - network.FROM).toNat).map
          (fun k : Nat => subnetIP ++ fmtInt (network.FROM + (k : Int))) ∧
      (network.TO < network.FROM → probes w1.trace = probes w.trace) := by
  refine ⟨_, _, getIPRange_spec env network subnetIP w fuel hFrom hTo hMax hfuel, ?_, ?_⟩
  · simp [probes_append, probes_scanEvents, candidates_eq_range, Function.comp]
  · intro hlt
    have h0 : (network.TO + 1 - network.FROM).toNat = 0 := by omega
    simp [h0, candidates, scanEvents]

/-- Witness of C7: the range 10 to 12 is probed at .10, .11, .12. -/
theorem getIPRange_probes_ascending_witness :
    (List.range (12 + 1 - 10 : Int).toNat).map
        (fun k : Nat => "192.168.1." ++ fmtInt (10 + (k : Int))) =
      ["192.168.1.10", "192.168.1.11", "192.168.1.12"] ∧
    ∃ ips w1,
      getIPRange (linuxEnv "server" sampleInfo ["192.168.1.10"]) ⟨10, 12⟩ "192.168.1." 4
        (World.start (fun _ => none)) = Res.ok ips w1 ∧
      probes w1.trace = probes (World.start (fun _ => none)).trace ++
        (List.range (12 + 1 - 10 : Int).toNat).map
          (fun k : Nat => "192.168.1." ++ fmtInt (10 + (k : Int))) ∧
      ((12 : Int) < 10 → probes w1.trace = probes (World.start (fun _ => none)).trace) :=
  ⟨by decide,
   getIPRange_probes_ascending (linuxEnv "server" sampleInfo ["192.168.1.10"]) ⟨10, 12⟩
    "192.168.1." (World.start (fun _ => none)) 4 (by decide) (by decide) (by decide)
    (by decide)⟩

/-- Counterexample to C7 as stated: in the range whose two ends are the
largest `int`, the first three rounds of the loop probe the candidate of the
range and then the candidates of the two smallest `int`s, which lie outside
the range. -/
theorem getIPRange_probes_outside_range :
    probes (getIPRange (linuxEnv "server" sampleInfo []) ⟨maxInt, maxInt⟩ "192.168.1." 3
        (World.start (fun _ => none))).world.trace =
      ["192.168.1.9223372036854775807", "192.168.1.-9223372036854775808",
        "192.168.1.-9223372036854775807"] := by
  decide

theorem configureCalls_append (a b : List Event) :
    configureCalls (a ++ b) = configureCalls a + configureCalls b := by
  induction a with
  | nil => simp [configureCalls]
  | cons e es ih => cases e <;> simp [configureCalls, ih]; omega

theorem actions_append (a b : List Event) : actions (a ++ b) = actions a ++ actions b := by
  induction a with
  | nil => rfl
  | cons e es ih => cases e <;> simp [actions, ih]

/-! ## C2: a range without a free address -/

/-- Every exhausted range ends in the same way: when the document has
`dhcp == false`, the role is known and `checkIP` answers "alive" for every
candidate of its range, the run stops with the panic "index out of range"
after the probes, and nothing else has happened. -/
theorem checkDhcp_all_alive_panics (env : Env) (fuel : Nat) (w : World) (d : Data)
    (rest : List Data) (head9 : String) (network : Range)
    (hapi : env.api = ApiOutcome.decoded (d :: rest)) (hdhcp : d.Network.DHCP = false)
    (hs : sliceTo d.Network.Subnet.IP 9 = some head9)
    (hr : roleRange d.Network env.TYPENODE = some network)
    (hFrom : isInt network.FROM) (hTo : isInt network.TO) (hMax : network.TO ≠ maxInt)
    (hfuel : (network.TO + 1 - network.FROM).toNat < fuel)
    (hocc : ∀ n : Int, network.FROM ≤ n → n ≤ network.TO →
      checkIPAnswer env (head9 ++ "." ++ fmtInt n) = true) :
    checkDhcp env fuel w =
      Res.halt (Halt.panic "index out of range [0] with length 0")
        ⟨w.trace ++ scanEvents env (head9 ++ ".")
          (candidates (network.TO + 1 - network.FROM).toNat network.FROM), w.files⟩ := by
  have hnil := freeOf_all_alive env (head9 ++ ".") (network.TO + 1 - network.FROM).toNat
    network.FROM (fun m h1 h2 => hocc m h1 (by omega))
  simp [checkDhcp, getNetworkInfo, getApiJson, hapi, hdhcp, hs, hr,
    getIPRange_spec env network (head9 ++ ".") w fuel hFrom hTo hMax hfuel, hnil]

/-- C2 (evaluation at the failing input): role `failover`, range 5 to 5 and
address .5 answering.  `getIPRange` returns the empty list and taking its
first element stops the run with the run-time panic "index out of range"
(exit status 2) right after the single probe: the line "No unavailable IP
found." is never printed, no error of the program is reported, and
`configureNetwork` is not called. -/
theorem checkDhcp_exhausted_range_panics :
    (main (linuxEnv "failover" sampleInfo ["192.168.1.5"]) 2 (fun _ => none)).stopped =
      some (Halt.panic "index out of range [0] with length 0") ∧
    (main (linuxEnv "failover" sampleInfo ["192.168.1.5"]) 2 (fun _ => none)).world.trace =
      [Event.probe "192.168.1.5",
        Event.command "ping" ["-c", "1", "-W", "1", "192.168.1.5"]] := by
  decide

/-! ## C3 and C4: the DHCP branch -/

/-- C3: for every decoded response whose first document has `dhcp == true`,
whatever the host, the role selector and the answers of the probe, a run of
`checkDhcp` only prints "DHCP configured": it does not call `checkIP`, does
not call `configureNetwork`, runs no command and writes no file. -/
theorem checkDhcp_dhcp_no_probe_no_configure (env : Env) (fuel : Nat) (w : World)
    (d : Data) (rest : List Data)
    (hapi : env.api = ApiOutcome.decoded (d :: rest)) (hdhcp : d.Network.DHCP = true) :
    (checkDhcp env fuel w).world.trace = w.trace ++ [Event.println "DHCP configured"] ∧
    probes (checkDhcp env fuel w).world.trace = probes w.trace ∧
    configureCalls (checkDhcp env fuel w).world.trace = configureCalls w.trace ∧
    actions (checkDhcp env fuel w).world.trace = actions w.trace ∧
    (checkDhcp env fuel w).world.files = w.files := by
  have h : checkDhcp env fuel w =
      Res.halt (Halt.exit 1) (w.log (Event.println "DHCP configured")) := by
    simp [checkDhcp, getNetworkInfo, getApiJson, hapi, hdhcp]
  rw [h]
  simp [Res.world, World.log, probes_append, configureCalls_append, actions_append, probes,
    configureCalls, actions]

/-- Witness of C3: the sample document with `dhcp` set, on a Linux host. -/
theorem checkDhcp_dhcp_no_probe_no_configure_witness :
    (checkDhcp (linuxEnv "server" { sampleInfo with DHCP := true } []) 4
        (World.start (fun _ => none))).world.trace = [] ++ [Event.println "DHCP configured"] ∧
    probes (checkDhcp (linuxEnv "server" { sampleInfo with DHCP := true } []) 4
        (World.start (fun _ => none))).world.trace = probes [] ∧
    configureCalls (checkDhcp (linuxEnv "server" { sampleInfo with DHCP := true } []) 4
        (World.start (fun _ => none))).world.trace = configureCalls [] ∧
    actions (checkDhcp (linuxEnv "server" { sampleInfo with DHCP := true } []) 4
        (World.start (fun _ => none))).world.trace = actions [] ∧
    (checkDhcp (linuxEnv "server" { sampleInfo with DHCP := true } []) 4
        (World.start (fun _ => none))).world.files = fun _ => none :=
  checkDhcp_dhcp_no_probe_no_configure (linuxEnv "server" { sampleInfo with DHCP := true } []) 4
    (World.start (fun _ => none)) ⟨{ sampleInfo with DHCP := true }⟩ [] rfl rfl

/-- C4 (amended): for every decoded response whose first document has
`dhcp == true`, the run stops in `os.Exit(1)`: the exit status of the process
is 1. -/
theorem checkDhcp_dhcp_exit_status (env : Env) (fuel : Nat) (w : World)
    (d : Data) (rest : List Data)
    (hapi : env.api = ApiOutcome.decoded (d :: rest)) (hdhcp : d.Network.DHCP = true) :
    (checkDhcp env fuel w).exitStatus = some 1 := by
  simp [checkDhcp, getNetworkInfo, getApiJson, hapi, hdhcp, Res.exitStatus]

/-- Witness of C4 (amended). -/
theorem checkDhcp_dhcp_exit_status_witness :
    (checkDhcp (linuxEnv "pos" { sampleInfo with DHCP := true } ["192.168.1.20"]) 0
        (World.start (fun _ => none))).exitStatus = some 1 :=
  checkDhcp_dhcp_exit_status (linuxEnv "pos" { sampleInfo with DHCP := true } ["192.168.1.20"])
    0 (World.start (fun _ => none)) ⟨{ sampleInfo with DHCP := true }⟩ [] rfl rfl

/-- Counterexample to C4 as stated: with `dhcp == true` the exit status of
the run is 1, not 0. -/
theorem main_dhcp_exit_status_not_zero :
    ({ sampleInfo with DHCP := true } : NetworkInfo).DHCP = true ∧
    (main (linuxEnv "server" { sampleInfo with DHCP := true } []) 4 (fun _ => none)).exitStatus
      = some 1 ∧
    (main (linuxEnv "server" { sampleInfo with DHCP := true } []) 4 (fun _ => none)).exitStatus
      ≠ some 0 := by
  decide

/-! ## C5: an unknown role -/

/-- C5 (amended): for every decoded response whose first document has
`dhcp == false` and a `subnet.ip` of at least nine bytes, and every role
selector other than `server`, `pos`, `kds`, `failover` (the empty one
included), the run prints "Unknown machine type: <nil>" and stops in
`os.Exit(1)`, without a call of `checkIP` or of `configureNetwork`, without
running a command and without writing a file. -/
theorem checkDhcp_unknown_role (env : Env) (fuel : Nat) (w : World)
    (d : Data) (rest : List Data)
    (hapi : env.api = ApiOutcome.decoded (d :: rest)) (hdhcp : d.Network.DHCP = false)
    (hip : 9 ≤ d.Network.Subnet.IP.data.length)
    (hrole : env.TYPENODE ≠ "server" ∧ env.TYPENODE ≠ "pos" ∧ env.TYPENODE ≠ "kds" ∧
      env.TYPENODE ≠ "failover") :
    checkDhcp env fuel w =
      Res.halt (Halt.exit 1) (w.log (Event.println "Unknown machine type: <nil>")) ∧
    (checkDhcp env fuel w).exitStatus = some 1 ∧
    probes (checkDhcp env fuel w).world.trace = probes w.trace ∧
    configureCalls (checkDhcp env fuel w).world.trace = configureCalls w.trace ∧
    actions (checkDhcp env fuel w).world.trace = actions w.trace ∧
    (checkDhcp env fuel w).world.files = w.files := by
  obtain ⟨h1, h2, h3, h4⟩ := hrole
  have hlen : 9 ≤ d.Network.Subnet.IP.length := hip
  have h : checkDhcp env fuel w =
      Res.halt (Halt.exit 1) (w.log (Event.println "Unknown machine type: <nil>")) := by
    simp [checkDhcp, getNetworkInfo, getApiJson, hapi, hdhcp, sliceTo, hlen, roleRange,
      h1, h2, h3, h4, handleError]
  rw [h]
  simp [Res.world, Res.exitStatus, World.log, probes_append, configureCalls_append,
    actions_append, probes, configureCalls, actions]

/-- Witness of C5 (amended): role selector "unknown". -/
theorem checkDhcp_unknown_role_witness :
    (checkDhcp (linuxEnv "unknown" sampleInfo []) 4 (World.start (fun _ => none))).exitStatus
      = some 1 ∧
    probes (checkDhcp (linuxEnv "unknown" sampleInfo []) 4
      (World.start (fun _ => none))).world.trace = [] :=
  ⟨(checkDhcp_unknown_role (linuxEnv "unknown" sampleInfo []) 4 (World.start (fun _ => none))
      ⟨sampleInfo⟩ [] rfl rfl (by decide) (by decide)).2.1,
   (checkDhcp_unknown_role (linuxEnv "unknown" sampleInfo []) 4 (World.start (fun _ => none))
      ⟨sampleInfo⟩ [] rfl rfl (by decide) (by decide)).2.2.1⟩

/-- Counterexample to C5 as stated: with role selector "unknown" and a
document that has `dhcp == true`, the run stops in the DHCP branch, before
the role is looked at: it prints "DHCP configured" and never reports the
unknown role. -/
theorem main_unknown_role_dhcp_first :
    (main (linuxEnv "unknown" { sampleInfo with DHCP := true } []) 4 (fun _ => none)).world.trace
      = [Event.println "DHCP configured"] ∧
    Event.println "Unknown machine type: <nil>" ∉
      (main (linuxEnv "unknown" { sampleInfo with DHCP := true } []) 4
        (fun _ => none)).world.trace := by
  decide

/-! ## C6: the subnet part of the candidate addresses -/

/-- C6 (evaluation at the failing inputs).  For `subnet.ip` "10.0.0.5", whose
first three octets are "10.0.0.", the slice `[:9]` of the eight-byte string
stops the run with the run-time panic "slice bounds out of range" before
anything is printed or probed.  For `subnet.ip` "192.168.100.1", whose first
three octets are "192.168.100.", the subnet part passed to `getIPRange` is
"192.168.1.": the addresses probed are 192.168.1.10 to 192.168.1.12. -/
theorem checkDhcp_subnet_part_nine_bytes :
    firstThreeOctets "10.0.0.5" = some "10.0.0." ∧
    (main (linuxEnv "server" { sampleInfo with Subnet := ⟨"10.0.0.5", 24⟩ } []) 4
      (fun _ => none)).stopped = some (Halt.panic "slice bounds out of range") ∧
    (main (linuxEnv "server" { sampleInfo with Subnet := ⟨"10.0.0.5", 24⟩ } []) 4
      (fun _ => none)).world.trace = [] ∧
    firstThreeOctets "192.168.100.1" = some "192.168.100." ∧
    probes (main (linuxEnv "server" { sampleInfo with Subnet := ⟨"192.168.100.1", 24⟩ } []) 4
      (fun _ => none)).world.trace = ["192.168.1.10", "192.168.1.11", "192.168.1.12"] := by
  decide

/-! ## C8: a host that is neither windows, darwin nor linux -/

/-- C9 (amended): on windows, darwin and linux, for every address and every
outcome of the single ping command, `checkIP` answers `true` ("alive")
exactly when the command ended without an execution error and its combined
output does not contain the text "2 received"; in particular every execution
error, a timeout included, yields "not alive". -/
theorem checkIP_alive_iff (env : Env) (ip : String) (w : World)
    (hos : env.GOOS = "windows" ∨ env.GOOS = "darwin" ∨ env.GOOS = "linux") :
    ∃ args, pingArgs env.GOOS ip = some args ∧
      ((checkIP env ip w).1 = true ↔
        ((env.run "ping" args).err = none ∧
          stringsContains (env.run "ping" args).output "2 received" = false)) ∧
      ((env.run "ping" args).err ≠ none → (checkIP env ip w).1 = false) := by
  have hargs : ∃ args, pingArgs env.GOOS ip = some args := by
    rcases hos with h | h | h <;> simp [pingArgs, h]
  obtain ⟨args, hargs⟩ := hargs
  refine ⟨args, hargs, ?_, ?_⟩
  · cases he : (env.run "ping" args).err with
    | none => simp [checkIP, hargs, he]
    | some e => simp [checkIP, hargs, he]
  · intro hne
    cases he : (env.run "ping" args).err with
    | none => exact absurd he hne
    | some e => simp [checkIP, hargs, he]

/-- Witness of C9 (amended): a Linux host on which 192.168.1.10 answers. -/
theorem checkIP_alive_iff_witness :
    ∃ args, pingArgs "linux" "192.168.1.10" = some args ∧
      ((checkIP (linuxEnv "server" sampleInfo ["192.168.1.10"]) "192.168.1.10"
          (World.start (fun _ => none))).1 = true ↔
        ((pingOf ["192.168.1.10"] "ping" args).err = none ∧
          stringsContains (pingOf ["192.168.1.10"] "ping" args).output "2 received" = false)) ∧
      ((pingOf ["192.168.1.10"] "ping" args).err ≠ none →
        (checkIP (linuxEnv "server" sampleInfo ["192.168.1.10"]) "192.168.1.10"
          (World.start (fun _ => none))).1 = false) :=
  checkIP_alive_iff (linuxEnv "server" sampleInfo ["192.168.1.10"]) "192.168.1.10"
    (World.start (fun _ => none)) (Or.inr (Or.inr rfl))

/-- Counterexample to C9 as stated: on a Linux host, a ping that ends without
an execution error and whose output contains "2 received" makes `checkIP`
answer "not alive". -/
theorem checkIP_two_received_not_alive :
    ((answeringEnv "2 packets transmitted, 2 received, 0% packet loss").run "ping"
      ["-c", "1", "-W", "1", "192.168.1.10"]).err = none ∧
    (checkIP (answeringEnv "2 packets transmitted, 2 received, 0% packet loss") "192.168.1.10"
      (World.start (fun _ => none))).1 = false := by
  decide

/-! ## C10: the file written by the Linux variant -/

theorem store_files_again (w w1 : World) (path a : String)
    (h : w1.files = (w.store path a).files) : (w1.store path a).files = w1.files := by
  funext p
  by_cases hp : p = path
  · rw [h]; simp [World.store, hp]
  · simp [World.store, hp]

theorem configureNetworkLinux_files (env : Env) (ipOff : String) (subnetMask : Int)
    (nameservers : List String) (gateway : String) (w : World) :
    (configureNetworkLinux env ipOff subnetMask nameservers gateway w).world.files =
      match env.writeFile netplanFilePath (netplanConfig ipOff subnetMask nameservers gateway) with
      | WriteOutcome.written =>
        (w.store netplanFilePath (netplanConfig ipOff subnetMask nameservers gateway)).files
      | WriteOutcome.openFailed _ => w.files
      | WriteOutcome.writeFailed _ n =>
        (w.store netplanFilePath (String.mk
          ((netplanConfig ipOff subnetMask nameservers gateway).data.take n))).files := by
  cases hw : env.writeFile netplanFilePath (netplanConfig ipOff subnetMask nameservers gateway)
    with
  | openFailed e => simp [configureNetworkLinux, hw, handleError, Res.world, World.log]
  | writeFailed e n =>
    simp [configureNetworkLinux, hw, handleError, Res.world, World.log, World.store]
  | written =>
    cases hr : (env.run "netplan" ["apply"]).err with
    | some e => simp [configureNetworkLinux, hw, hr, handleError, Res.world, World.log, World.store]
    | none => simp [configureNetworkLinux, hw, hr, Res.world, World.log, World.store]

theorem fmtInt_eq_toString (i : Int) : fmtInt i = toString i := by
  cases i <;> rfl

theorem intercalate_go_eq (sep : String) :
    ∀ (l : List String) (acc a : String),
      String.intercalate.go (acc ++ sep ++ a) sep l = acc ++ sep ++ stringsJoin (a :: l) sep := by
  intro l
  induction l with
  | nil => intro acc a; simp [String.intercalate.go, stringsJoin]
  | cons b bs ih =>
    intro acc a
    rw [String.intercalate.go, ih]
    simp [stringsJoin, String.append_assoc]

theorem stringsJoin_eq_intercalate (l : List String) (sep : String) :
    stringsJoin l sep = sep.intercalate l := by
  cases l with
  | nil => rfl
  | cons a as =>
    cases as with
    | nil => simp [stringsJoin, String.intercalate, String.intercalate.go]
    | cons b bs =>
      rw [String.intercalate, String.intercalate.go, intercalate_go_eq]
      simp [stringsJoin, String.append_assoc]

/-- C10: for every address, mask, list of name servers and gateway, the text
that `configureNetworkLinux` renders is the netplan template filled with the
address, the decimal mask, the gateway and the name servers in their order
joined by ", " (`fmtInt` is the decimal `toString`, `stringsJoin` is
`String.intercalate`).  When `os.WriteFile` succeeds, the file
`/etc/netplan/99-custom.yaml` holds exactly that text, whatever the files
held before, and no other file changes.  Applying the function a second time
with the same parameters, with `os.WriteFile` ending as it did the first
time (and whatever `netplan apply` answers either time), leaves every file
as it was after the first application. -/
theorem configureNetworkLinux_idempotent (env env2 : Env) (ipOff : String) (subnetMask : Int)
    (nameservers : List String) (gateway : String) (w : World) :
    netplanConfig ipOff subnetMask nameservers gateway =
      "network:\n  version: 2\n  renderer: networkd\n  ethernets:\n    eth0:\n      dhcp4: no\n"
        ++ "      addresses: [\"" ++ ipOff ++ "/" ++ fmtInt subnetMask ++ "\"]\n"
        ++ "      gateway4: \"" ++ gateway ++ "\"\n"
        ++ "      nameservers:\n        addresses: [" ++ stringsJoin nameservers ", " ++ "]\n" ∧
    fmtInt subnetMask = toString subnetMask ∧
    stringsJoin nameservers ", " = ", ".intercalate nameservers ∧
    (env.writeFile "/etc/netplan/99-custom.yaml"
        (netplanConfig ipOff subnetMask nameservers gateway) = WriteOutcome.written →
      (configureNetworkLinux env ipOff subnetMask nameservers gateway w).world.files =
        fun p => if p = "/etc/netplan/99-custom.yaml"
          then some (netplanConfig ipOff subnetMask nameservers gateway) else w.files p) ∧
    (env2.writeFile "/etc/netplan/99-custom.yaml"
        (netplanConfig ipOff subnetMask nameservers gateway) =
      env.writeFile "/etc/netplan/99-custom.yaml"
        (netplanConfig ipOff subnetMask nameservers gateway) →
      (configureNetworkLinux env2 ipOff subnetMask nameservers gateway
          (configureNetworkLinux env ipOff subnetMask nameservers gateway w).world).world.files =
        (configureNetworkLinux env ipOff subnetMask nameservers gateway w).world.files) := by
  refine ⟨rfl, fmtInt_eq_toString _, stringsJoin_eq_intercalate _ _, ?_, ?_⟩
  · intro hw
    have hw2 : env.writeFile netplanFilePath
        (netplanConfig ipOff subnetMask nameservers gateway) = WriteOutcome.written := hw
    rw [configureNetworkLinux_files, hw2]
    rfl
  · intro hsame
    have hsame2 : env2.writeFile netplanFilePath
        (netplanConfig ipOff subnetMask nameservers gateway) =
        env.writeFile netplanFilePath (netplanConfig ipOff subnetMask nameservers gateway) :=
      hsame
    have h1 := configureNetworkLinux_files env ipOff subnetMask nameservers gateway w
    have h2 := configureNetworkLinux_files env2 ipOff subnetMask nameservers gateway
      (configureNetworkLinux env ipOff subnetMask nameservers gateway w).world
    rw [hsame2] at h2
    cases hw : env.writeFile netplanFilePath
      (netplanConfig ipOff subnetMask nameservers gateway) with
    | openFailed e =>
      rw [hw] at h2
      exact h2
    | writeFailed e n =>
      rw [hw] at h1 h2
      exact h2.trans (store_files_again w _ _ _ h1)
    | written =>
      rw [hw] at h1 h2
      exact h2.trans (store_files_again w _ _ _ h1)

/-- Witness of C10: the sample document and address 192.168.1.12 on a Linux
host whose file holds an older configuration.  After one application and
after two, the file holds the same rendered text. -/
theorem configureNetworkLinux_idempotent_witness :
    (configureNetworkLinux (linuxEnv "server" sampleInfo []) "192.168.1.12" 24
        ["8.8.8.8", "1.1.1.1"] "192.168.1.1"
        (World.start (fun _ => some "older content\n"))).world.files
        "/etc/netplan/99-custom.yaml" =
      some "network:\n  version: 2\n  renderer: networkd\n  ethernets:\n    eth0:\n      dhcp4: no\n      addresses: [\"192.168.1.12/24\"]\n      gateway4: \"192.168.1.1\"\n      nameservers:\n        addresses: [8.8.8.8, 1.1.1.1]\n" ∧
    (configureNetworkLinux (linuxEnv "server" sampleInfo []) "192.168.1.12" 24
        ["8.8.8.8", "1.1.1.1"] "192.168.1.1"
        (configureNetworkLinux (linuxEnv "server" sampleInfo []) "192.168.1.12" 24
          ["8.8.8.8", "1.1.1.1"] "192.168.1.1"
          (World.start (fun _ => some "older content\n"))).world).world.files =
      (configureNetworkLinux (linuxEnv "server" sampleInfo []) "192.168.1.12" 24
        ["8.8.8.8", "1.1.1.1"] "192.168.1.1"
        (World.start (fun _ => some "older content\n"))).world.files :=
  ⟨congrFun ((configureNetworkLinux_idempotent (linuxEnv "server" sampleInfo [])
      (linuxEnv "server" sampleInfo []) "192.168.1.12" 24 ["8.8.8.8", "1.1.1.1"] "192.168.1.1"
      (World.start (fun _ => some "older content\n"))).2.2.2.1 rfl) "/etc/netplan/99-custom.yaml",
   (configureNetworkLinux_idempotent (linuxEnv "server" sampleInfo [])
      (linuxEnv "server" sampleInfo []) "192.168.1.12" 24 ["8.8.8.8", "1.1.1.1"] "192.168.1.1"
      (World.start (fun _ => some "older content\n"))).2.2.2.2 rfl⟩

/-- A write that fails after the file was opened leaves the file with what
was written before the error, here nothing: the older content is lost. -/
theorem configureNetworkLinux_failed_write_truncates :
    (configureNetworkLinux
        { linuxEnv "server" sampleInfo [] with
          writeFile := fun _ _ => WriteOutcome.writeFailed "no space left on device" 0 }
        "192.168.1.12" 24 ["8.8.8.8", "1.1.1.1"] "192.168.1.1"
        (World.start (fun _ => some "older content"))).world.files
        "/etc/netplan/99-custom.yaml" = some "" := by
  rfl

end ConfigureNetwork
